import Mathlib

/-!
# Verification of the Backup-Data replication engine

A shallow embedding, in Lean 4, of the core of the Backup-Data repository:
a NestJS service keeping a backup PostgreSQL database in sync with a primary
one.  The embedded pieces are:

* the type mapper of `BackupService` (`mapPostgreSQLDataType`, `mapSimpleType`)
  and the generic DDL fallback builder of `CdcService`
  (`createTableWithFallback`);
* value coercion for boolean columns (`processColumnValue` /
  `processValueForInsertion`, `case 'boolean'`);
* the change-detection cycle of `CdcService` (`getTablesWithTimestamp`,
  `syncTableChanges`, `handleMissingBackupTable`, `upsertRecords`,
  `processBatch`) over an explicit two-database state;
* the full-backup insert path of `BackupService` (`insertDataInBatches`,
  `ON CONFLICT DO NOTHING`);
* `forceSyncTable` of `CdcService`;
* the health classifier of `MonitoringService.collectMetrics` and the
  coverage percentage of `MonitoringController.getMetrics`;
* a query-runner release model for `backupTable`, `syncTableChanges` and
  `getBackupStatus`.

Database values are modelled as a small tagged union (`Value`); timestamps
are modelled as integers (epoch milliseconds), so the SQL default
`'1970-01-01'::timestamp` and the bigint default `0` both become `0`.
SQL statements issued by the service are modelled by their semantics on
explicit table states; throwing database calls are modelled by `Except`
or by boolean failure oracles.
-/

namespace BackupData

/-- A database value: the subset of driver values the engine manipulates.
Timestamps are epoch integers (`int`). -/
inductive Value where
  | null : Value
  | int : Int → Value
  | str : String → Value
  | bool : Bool → Value
deriving DecidableEq, Repr

/-- A row as returned by the driver: an ordered association list from
column name to value (the shape of one element of a `SELECT *` result). -/
abbrev Row := List (String × Value)

/-- `row[col]` lookup; an absent column reads as SQL NULL (JS `undefined`
is coerced to `null` by `processValueForInsertion` / `processColumnValue`). -/
def Row.get (r : Row) (c : String) : Value :=
  match r.find? (fun cv => cv.1 = c) with
  | some cv => cv.2
  | none => Value.null

/-- A JS runtime value reaching the value-coercion functions: the cases
distinguished by their `typeof` tests. -/
inductive JSVal where
  | null : JSVal
  | str : String → JSVal
  | num : Int → JSVal
  | bool : Bool → JSVal
deriving DecidableEq, Repr

/-- JS truthiness of a non-null `JSVal`, as used by `Boolean(value)`. -/
def jsTruthy : JSVal → Bool
  | JSVal.null => false
  | JSVal.str s => !(s = "")
  | JSVal.num n => !(n = 0)
  | JSVal.bool b => b

/-- ASCII lowercasing of one character, as `toLowerCase()` acts on the
ASCII range. -/
def charLowerAscii (c : Char) : Char :=
  if 65 ≤ c.toNat ∧ c.toNat ≤ 90 then Char.ofNat (c.toNat + 32) else c

/-- JS `toLowerCase()` (the identifiers compared by the engine — type
names, the literals `'true'`, `'1'`, `'t'` — are ASCII). -/
def toLowerAscii (s : String) : String :=
  String.mk (s.data.map charLowerAscii)

/-- The `case 'boolean'` arm of `CdcService.processColumnValue`
(src/unnamed/part_004 lines 472-476) and of
`BackupService.processValueForInsertion` (backup.service.ts lines 472-476),
which are textually identical, together with the null guard at the top of
both functions: a string input returns
`value.toLowerCase() === 'true' || value === '1' || value === 't'`;
any other non-null input returns `Boolean(value)`. -/
def processColumnValueBoolean (v : JSVal) : JSVal :=
  match v with
  | JSVal.null => JSVal.null
  | JSVal.str s => JSVal.bool (toLowerAscii s == "true" || s == "1" || s == "t")
  | v => JSVal.bool (jsTruthy v)

/-- `BackupService.mapSimpleType` (backup.service.ts lines 303-320):
a lowercased native type name is kept when recognized, anything else
falls back to `text`. -/
def mapSimpleType (dataType : String) : String :=
  let dt := toLowerAscii dataType
  if dt = "bigint" then "bigint"
  else if dt = "integer" then "integer"
  else if dt = "smallint" then "smallint"
  else if dt = "boolean" then "boolean"
  else if dt = "text" then "text"
  else if dt = "uuid" then "uuid"
  else if dt = "bytea" then "bytea"
  else if dt = "real" then "real"
  else if dt = "double precision" then "double precision"
  else if dt = "money" then "money"
  else if dt = "inet" then "inet"
  else if dt = "cidr" then "cidr"
  else if dt = "macaddr" then "macaddr"
  else "text"

/-- One row of `information_schema.columns` as selected by
`BackupService.createTableFallback`. Optional fields are `Option`;
JS `null`/`undefined` is `none`. -/
structure IntrospectedColumn where
  column_name : String
  data_type : String
  character_maximum_length : Option Nat
  is_nullable : String
  column_default : Option String
  udt_name : Option String
  numeric_precision : Option Nat
  numeric_scale : Option Nat
deriving DecidableEq, Repr

/-- `BackupService.mapPostgreSQLDataType` (backup.service.ts lines 248-301).
The JS truthiness test `col.numeric_precision && col.numeric_scale !== null`
is modelled as both fields being present (a present precision of `0` does
not occur in PostgreSQL catalogs). -/
def mapPostgreSQLDataType (col : IntrospectedColumn) : String :=
  let dataType := toLowerAscii col.data_type
  let udtName := col.udt_name.map toLowerAscii
  if dataType = "user-defined" then
    -- custom types such as ENUMs fall back to text in the backup
    "text"
  else if dataType = "array" then
    match udtName with
    | some u =>
      if u.startsWith "_" then mapSimpleType (u.drop 1) ++ "[]" else "text[]"
    | none => "text[]"
  else if dataType = "character varying" then
    match col.character_maximum_length with
    | some n => "varchar(" ++ toString n ++ ")"
    | none => "varchar"
  else if dataType = "character" then
    match col.character_maximum_length with
    | some n => "char(" ++ toString n ++ ")"
    | none => "char"
  else if dataType = "numeric" || dataType = "decimal" then
    match col.numeric_precision, col.numeric_scale with
    | some p, some s => "numeric(" ++ toString p ++ "," ++ toString s ++ ")"
    | _, _ => "numeric"
  else if dataType = "timestamp without time zone" then "timestamp"
  else if dataType = "timestamp with time zone" then "timestamptz"
  else if dataType = "time without time zone" then "time"
  else if dataType = "time with time zone" then "timetz"
  else if udtName = some "jsonb" then "jsonb"
  else if udtName = some "json" then "json"
  else mapSimpleType dataType

/-- One column row as selected by `CdcService.createTableWithFallback`
(src/unnamed/part_004 lines 778-783). -/
structure FallbackColumn where
  column_name : String
  data_type : String
  is_nullable : String
  character_maximum_length : Option Nat
  udt_name : String
deriving DecidableEq, Repr

/-- The type fragment of one column definition synthesized by
`CdcService.createTableWithFallback` (src/unnamed/part_004 lines 785-820):
a `switch` on the raw `data_type`. Note the `USER-DEFINED` arm emits the
column's native `udt_name`, not `text`. `character_maximum_length || 255`
is JS truthiness; a present length of `0` does not occur. -/
def fallbackColumnType (col : FallbackColumn) : String :=
  if col.data_type = "character varying" then
    "varchar(" ++ toString (col.character_maximum_length.getD 255) ++ ")"
  else if col.data_type = "text" then "text"
  else if col.data_type = "bigint" then "bigint"
  else if col.data_type = "integer" then "integer"
  else if col.data_type = "boolean" then "boolean"
  else if col.data_type = "timestamp without time zone" then "timestamp"
  else if col.data_type = "timestamp with time zone" then "timestamptz"
  else if col.data_type = "USER-DEFINED" then col.udt_name
  else "text"

/-- One full column definition of `createTableWithFallback`:
`"name" type [NOT NULL]`. -/
def fallbackColumnDef (col : FallbackColumn) : String :=
  "\"" ++ col.column_name ++ "\" " ++ fallbackColumnType col ++
    (if col.is_nullable = "NO" then " NOT NULL" else "")

/-- The `CREATE TABLE` statement synthesized by `createTableWithFallback`
(src/unnamed/part_004 line 822). Total: it is produced for every
introspected column list. -/
def createTableWithFallbackSQL (tableName : String) (cols : List FallbackColumn) : String :=
  "CREATE TABLE \"" ++ tableName ++ "\" (" ++
    String.intercalate ", " (cols.map fallbackColumnDef) ++ ")"

/-- JS `Math.round`: round half toward positive infinity. -/
def jsMathRound (x : Rat) : Int :=
  Int.floor (x + 1 / 2)

/-- `coverage_percentage` of `MonitoringController.getMetrics`
(monitoring.controller.ts lines 57-58):
`totalTables > 0 ? Math.round(backedUpTables / totalTables * 100) : 0`. -/
def coveragePercentage (totalTables backedUpTables : Nat) : Int :=
  if 0 < totalTables then
    jsMathRound ((backedUpTables : Rat) / (totalTables : Rat) * 100)
  else 0

/-- The tri-state health verdict of `MonitoringService`. -/
inductive HealthStatus where
  | healthy : HealthStatus
  | warning : HealthStatus
  | error : HealthStatus
deriving DecidableEq, Repr

/-- Numeric severity of a health status. -/
def statusSeverity : HealthStatus → Nat
  | HealthStatus.healthy => 0
  | HealthStatus.warning => 1
  | HealthStatus.error => 2

/-- The more severe of two statuses. -/
def maxStatus (a b : HealthStatus) : HealthStatus :=
  if statusSeverity a < statusSeverity b then b else a

/-- The coverage error message pushed by `collectMetrics`
(src/unnamed/part_006 line 82). -/
def coverageErrMsg (missingTables : Int) (roundedCoverage : Int) : String :=
  toString missingTables ++ " tables are not backed up (" ++
    toString roundedCoverage ++ "% coverage)"

/-- The staleness error message pushed by `collectMetrics`
(src/unnamed/part_006 lines 90 and 93); `Math.floor` of the hour count. -/
def staleErrMsg (hoursFloor : Int) : String :=
  "Last backup was " ++ toString hoursFloor ++ " hours ago"

/-- The status-classification core of `MonitoringService.collectMetrics`
(src/unnamed/part_006 lines 78-100), on the already-fetched inputs:
primary table count, backup table count, and the hours elapsed since the
last successful backup (`none` when `lastBackupTime` is null).
Mirrors the code: `healthStatus` starts `healthy`; a coverage ratio below
0.9 pushes an error message and sets `warning`; then, when a last backup
time exists, more than 24 hours sets `error`, more than 6 hours sets
`warning` only if the status is still `healthy`; both branches push a
message. -/
def collectMetricsClassify (totalTables backupTables : Nat)
    (hoursSinceLastBackup : Option Rat) : HealthStatus × List String :=
  let coverage : Rat :=
    if 0 < totalTables then (backupTables : Rat) / (totalTables : Rat) else 1
  let step1 : HealthStatus × List String :=
    if coverage < 9 / 10 then
      (HealthStatus.warning,
        [coverageErrMsg ((totalTables : Int) - (backupTables : Int))
          (jsMathRound (coverage * 100))])
    else (HealthStatus.healthy, [])
  match hoursSinceLastBackup with
  | none => step1
  | some h =>
    if 24 < h then
      (HealthStatus.error, step1.2 ++ [staleErrMsg (Int.floor h)])
    else if 6 < h then
      ((if step1.1 = HealthStatus.healthy then HealthStatus.warning else step1.1),
        step1.2 ++ [staleErrMsg (Int.floor h)])
    else step1

/-- Severity contributed by the coverage check alone. -/
def coverageSeverity (totalTables backupTables : Nat) : HealthStatus :=
  let coverage : Rat :=
    if 0 < totalTables then (backupTables : Rat) / (totalTables : Rat) else 1
  if coverage < 9 / 10 then HealthStatus.warning else HealthStatus.healthy

/-- Severity contributed by the staleness check alone. -/
def staleSeverity : Option Rat → HealthStatus
  | none => HealthStatus.healthy
  | some h =>
    if 24 < h then HealthStatus.error
    else if 6 < h then HealthStatus.warning
    else HealthStatus.healthy

/-! ## The two-database state

Catalog metadata and table contents, as far as the queries issued by the
services observe them. -/

/-- A column as seen through `information_schema.columns`: its name and its
`data_type`. -/
structure ColumnMeta where
  name : String
  dataType : String
deriving DecidableEq, Repr

/-- One table of a database: catalog metadata (columns, primary-key column
names, in `ordinal_position` order) plus its rows. -/
structure Table where
  name : String
  cols : List ColumnMeta
  pk : List String
  rows : List Row
deriving DecidableEq, Repr

/-- A database: its `public`-schema tables. -/
abbrev DB := List Table

/-- Catalog lookup of a table by name. -/
def DB.find (db : DB) (tableName : String) : Option Table :=
  List.find? (fun t => t.name = tableName) db

/-- `checkTableExists` (backup.service.ts lines 109-118 and
src/unnamed/part_004 lines 292-306): the `information_schema.tables`
EXISTS probe. -/
def checkTableExists (db : DB) (tableName : String) : Bool :=
  (DB.find db tableName).isSome

/-- Whether a table carries a column of the given name. -/
def tableHasColumn (t : Table) (columnName : String) : Bool :=
  t.cols.any (fun c => c.name = columnName)

/-- `checkColumnExists` (src/unnamed/part_004 lines 308-323): the
`information_schema.columns` EXISTS probe. -/
def checkColumnExists (db : DB) (tableName columnName : String) : Bool :=
  match DB.find db tableName with
  | some t => tableHasColumn t columnName
  | none => false

/-- `getColumnDataType` (src/unnamed/part_004 lines 325-339); an absent
table or column reads as `'unknown'`. -/
def getColumnDataType (db : DB) (tableName columnName : String) : String :=
  match DB.find db tableName with
  | some t =>
    match t.cols.find? (fun c => c.name = columnName) with
    | some c => c.dataType
    | none => "unknown"
  | none => "unknown"

/-- Replace the rows of one table of a database. -/
def DB.setRows (db : DB) (tableName : String) (rows : List Row) : DB :=
  db.map (fun t => if t.name = tableName then { t with rows := rows } else t)

/-- The `updateat` cursor value of a row, as an integer (bigint Unix
timestamps and epoch-encoded SQL timestamps alike). A non-integer or
absent value reads as the epoch. -/
def rowUpdateAt (r : Row) : Int :=
  match Row.get r "updateat" with
  | Value.int n => n
  | _ => 0

/-- `SELECT COALESCE(MAX(updateat), 0)` respectively
`COALESCE(MAX(updateat), '1970-01-01'::timestamp)`
(src/unnamed/part_004 lines 163-187): the maximum `updateat` over the
target table's rows, defaulting to `0` (the epoch) when the table is
empty. -/
def watermarkOf (rows : List Row) : Int :=
  match rows.map rowUpdateAt with
  | [] => 0
  | x :: xs => xs.foldl max x

/-- Ascending order on rows by their `updateat` value (the
`ORDER BY updateat` of the change pull). -/
def rowLe (a b : Row) : Prop :=
  rowUpdateAt a ≤ rowUpdateAt b

instance : DecidableRel rowLe :=
  fun a b => Int.decLe (rowUpdateAt a) (rowUpdateAt b)

instance : IsTotal Row rowLe :=
  ⟨fun a b => Int.le_total (rowUpdateAt a) (rowUpdateAt b)⟩

instance : IsTrans Row rowLe := ⟨fun _ _ _ => Int.le_trans⟩

/-- The change pull of `syncTableChanges` (src/unnamed/part_004 lines
172-201): `SELECT * FROM t WHERE updateat > $1 ORDER BY updateat LIMIT 100`
against the primary rows, with the watermark as parameter. -/
def selectChanged (primaryRows : List Row) (watermark : Int) : List Row :=
  (List.insertionSort rowLe
    (primaryRows.filter (fun r => decide (watermark < rowUpdateAt r)))).take 100

/-- Whether rows `a` and `b` agree on every column of `cols` (the conflict
test of `ON CONFLICT (cols)`). -/
def rowMatchesOn (cols : List String) (a b : Row) : Bool :=
  cols.all (fun c => decide (Row.get a c = Row.get b c))

/-- The row actually bound by an INSERT restricted to `cols`: the record's
values at exactly those columns, in column order. -/
def projectRow (cols : List String) (rec : Row) : Row :=
  cols.map (fun c => (c, Row.get rec c))

/-- Overwrite the non-conflict-target columns of an existing row with the
excluded row's values: the `DO UPDATE SET "c" = EXCLUDED."c"` list. -/
def applyUpdateSet (updateSet : List String) (rec old : Row) : Row :=
  old.map (fun cv => if updateSet.contains cv.1 then (cv.1, Row.get rec cv.1) else cv)

/-- Semantics of the single-record statement built by
`CdcService.processBatch` (src/unnamed/part_004 lines 408-445) against a
target table state `rows`:

* with a primary key whose columns appear among the valid columns,
  `INSERT ... ON CONFLICT (pk) DO UPDATE SET <non-pk valid cols>` —
  or `DO NOTHING` when every valid column is part of the key;
* with a primary key none of whose columns are valid, a plain `INSERT`;
* with no primary key, `INSERT ... ON CONFLICT DO NOTHING` (no unique
  constraint besides the primary key is modelled, so the insert always
  lands).

A conflict is an existing row agreeing with the record on the conflict
target; `DO UPDATE` rewrites the conflicting rows (at most one in a real
table, the key being unique). -/
def applyUpsertSQL (pkColumns validColumns : List String) (rows : List Row)
    (rec : Row) : List Row :=
  if pkColumns.isEmpty then
    rows ++ [projectRow validColumns rec]
  else
    let conflictTarget := pkColumns.filter (fun c => validColumns.contains c)
    if conflictTarget.isEmpty then
      rows ++ [projectRow validColumns rec]
    else if rows.any (fun r => rowMatchesOn conflictTarget r rec) then
      let updateSet := validColumns.filter (fun c => !(pkColumns.contains c))
      if updateSet.isEmpty then rows
      else rows.map (fun r =>
        if rowMatchesOn conflictTarget r rec then applyUpdateSet updateSet rec r else r)
    else
      rows ++ [projectRow validColumns rec]

/-- The valid-column computation of `processBatch` (src/unnamed/part_004
lines 398-399): the first record's keys intersected with the target
table's schema columns. -/
def validColumnsOf (schemaColumns : List String) (r0 : Row) : List String :=
  (r0.map Prod.fst).filter (fun c => schemaColumns.contains c)

/-- One record of the `processBatch` loop (src/unnamed/part_004 lines
408-451): the insert statement either succeeds (the oracle `ok` says the
driver accepted it) or throws. -/
def tryInsertRecord (ok : Row → Bool) (pkColumns validColumns : List String)
    (rows : List Row) (rec : Row) : Except String (List Row) :=
  if ok rec then Except.ok (applyUpsertSQL pkColumns validColumns rows rec)
  else Except.error "Failed to upsert record"

/-- The per-record loop of `processBatch`: each record's failure is caught
and logged and the loop continues, counting successes (the state advances
only on success). -/
def processBatchLoop (ok : Row → Bool) (pkColumns validColumns : List String)
    (acc : List Row × Nat) (records : List Row) : List Row × Nat :=
  records.foldl (fun acc rec =>
    match tryInsertRecord ok pkColumns validColumns acc.1 rec with
    | Except.ok rows => (rows, acc.2 + 1)
    | Except.error _ => acc) acc

/-- `CdcService.processBatch` (src/unnamed/part_004 lines 385-452) over a
target table state: computes the valid columns from the first record,
returns unchanged with a warning when none are valid, otherwise runs the
per-record loop. Returns the new table rows and the number of records
upserted; per-record failures never escape. -/
def processBatch (ok : Row → Bool) (pkColumns schemaColumns : List String)
    (rows : List Row) (records : List Row) : List Row × Nat :=
  match records with
  | [] => (rows, 0)
  | r0 :: _ =>
    let validColumns := validColumnsOf schemaColumns r0
    if validColumns.isEmpty then (rows, 0)
    else processBatchLoop ok pkColumns validColumns (rows, 0) records

/-- `CdcService.upsertRecords` (src/unnamed/part_004 lines 358-383) in its
success path: looks up the target table's schema and primary key, then
processes the records (the 50-row batching of the source partitions the
same left-to-right loop and does not change the resulting state). An
unreadable schema (absent table) returns with an error log and no write. -/
def upsertRecords (backup : DB) (tableName : String) (records : List Row) : DB :=
  if records.isEmpty then backup
  else
    match DB.find backup tableName with
    | none => backup
    | some t =>
      let schemaColumns := t.cols.map ColumnMeta.name
      let newRows := (processBatch (fun _ => true) t.pk schemaColumns t.rows records).1
      DB.setRows backup tableName newRows

/-- `CdcService.handleMissingBackupTable` (src/unnamed/part_004 lines
224-290) in its success path: the generated `CREATE TABLE` statement maps
`USER-DEFINED` column types to `text` and reproduces the other catalog
types, and the `%_pkey` constraint columns are replayed; the new table is
empty. No data is copied in this call. -/
def handleMissingBackupTable (primary backup : DB) (tableName : String) : DB :=
  match DB.find primary tableName with
  | none => backup
  | some tp =>
    let newCols := tp.cols.map (fun c =>
      if c.dataType = "USER-DEFINED" then { c with dataType := "text" } else c)
    backup ++ [{ name := tableName, cols := newCols, pk := tp.pk, rows := [] }]

/-- `CdcService.syncTableChanges` (src/unnamed/part_004 lines 118-222) as a
transformation of the backup database:

1. skip when the table is absent from the primary;
2. when the table is absent from the backup, create it via
   `handleMissingBackupTable` and return — no data copy this cycle;
3. skip silently unless BOTH databases carry a column literally named
   `updateat`;
4. read the watermark from the target (`watermarkOf`), pull the changed
   rows from the primary (`selectChanged`; the bigint and the timestamp
   branches coincide in the integer-timestamp model), and upsert them when
   any were found. -/
def syncTableChanges (primary backup : DB) (tableName : String) : DB :=
  match DB.find primary tableName with
  | none => backup
  | some tp =>
    match DB.find backup tableName with
    | none => handleMissingBackupTable primary backup tableName
    | some tb =>
      if !(tableHasColumn tp "updateat") then backup
      else if !(tableHasColumn tb "updateat") then backup
      else
        let lastSync := watermarkOf tb.rows
        let changedRecords := selectChanged tp.rows lastSync
        if 0 < changedRecords.length then upsertRecords backup tableName changedRecords
        else backup

/-- The column predicate of `CdcService.getTablesWithTimestamp`
(src/unnamed/part_004 lines 89-105): a recognized last-modified column
name (`LIKE '%updated%'`, `LIKE '%modified%'`, or one of the literal
names) whose declared type is a timestamp or `bigint`. -/
def timestampColumnMatch (c : ColumnMeta) : Bool :=
  (decide ("updated".toList <:+: c.name.toList)
    || decide ("modified".toList <:+: c.name.toList)
    || c.name = "updateat" || c.name = "updated_at"
    || c.name = "last_modified" || c.name = "last_updated")
  && (c.dataType = "timestamp without time zone"
    || c.dataType = "timestamp with time zone"
    || c.dataType = "bigint")

/-- `CdcService.getTablesWithTimestamp`: the names of the primary tables
carrying a recognized last-modified column, ordered by name. -/
def getTablesWithTimestamp (primary : DB) : List String :=
  List.insertionSort (fun a b => a ≤ b)
    ((primary.filter (fun t => t.cols.any timestampColumnMatch)).map Table.name)

/-- One change-detection cycle, `CdcService.detectAndSyncChanges`
(src/unnamed/part_004 lines 53-80): every candidate table is synced; the
concurrency-3 grouping schedules the same per-table work and each table
touches only its own backup table, so the cycle is modelled as the
left-to-right fold. -/
def detectAndSyncChanges (primary backup : DB) : DB :=
  (getTablesWithTimestamp primary).foldl
    (fun b tableName => syncTableChanges primary b tableName) backup

/-! ## The full-backup insert path of `BackupService` -/

/-- Semantics of one row of the statement built by
`BackupService.insertDataInBatches` (backup.service.ts line 401) and by
`insertRowsIndividually` (line 503):
`INSERT INTO t (...) VALUES (...) ON CONFLICT DO NOTHING`.
With no explicit conflict target, a conflict is a violation of any unique
constraint; the primary key is the one modelled, so with a key the row is
dropped exactly when an existing row agrees with it on the key columns,
and without a key the insert always lands. -/
def insertRowDoNothing (pkColumns : List String) (rows : List Row) (rec : Row) :
    List Row :=
  if !pkColumns.isEmpty && rows.any (fun r => rowMatchesOn pkColumns r rec) then rows
  else rows ++ [rec]

/-- `BackupService.insertDataInBatches` (backup.service.ts lines 383-416)
in its success path, against a target table state: every data row is
inserted with `ON CONFLICT DO NOTHING`, left to right (the 1000-row
batching partitions the same sequence of values and does not change the
resulting rows; the data rows carry the columns of the primary's
`SELECT *`). -/
def insertDataInBatches (pkColumns : List String) (targetRows data : List Row) :
    List Row :=
  data.foldl (insertRowDoNothing pkColumns) targetRows

/-! ## `forceSyncTable` -/

/-- The structured result of `CdcService.forceSyncTable`. -/
structure ForceSyncResult where
  success : Bool
  message : String
  recordsProcessed : Nat
deriving DecidableEq, Repr

/-- `CdcService.forceSyncTable` (src/unnamed/part_004 lines 684-729).
`connectFails` models a throwing `connect()` inside the inner try and
`selectFails` a throwing `SELECT * ... LIMIT 1000`; both are converted by
the outer catch into a `success: false` result. A table missing from
either database returns a `success: false` result without touching the
backup; otherwise up to 1000 primary rows are upserted. The function is
total: no path throws to the caller. -/
def forceSyncTable (primary backup : DB) (tableName : String)
    (connectFails selectFails : Bool) : ForceSyncResult × DB :=
  if connectFails then
    ({ success := false, message := "connect failed", recordsProcessed := 0 }, backup)
  else if !(checkTableExists primary tableName) then
    ({ success := false,
       message := "Table " ++ tableName ++ " does not exist in primary database",
       recordsProcessed := 0 }, backup)
  else if !(checkTableExists backup tableName) then
    ({ success := false,
       message := "Table " ++ tableName ++ " does not exist in backup database",
       recordsProcessed := 0 }, backup)
  else if selectFails then
    ({ success := false, message := "select failed", recordsProcessed := 0 }, backup)
  else
    match DB.find primary tableName with
    | none =>
      ({ success := false, message := "unreachable", recordsProcessed := 0 }, backup)
    | some tp =>
      let allRecords := tp.rows.take 1000
      if 0 < allRecords.length then
        ({ success := true,
           message := "Successfully force synced " ++ toString allRecords.length
             ++ " records",
           recordsProcessed := allRecords.length },
         upsertRecords backup tableName allRecords)
      else
        ({ success := true, message := "No records to sync", recordsProcessed := 0 },
         backup)

/-! ## Query-runner release accounting

Each operation acquires scoped query runners; the models record, next to
the operation's outcome, whether each acquired runner's `release()` call
was reached. -/

/-- Outcome of an operation holding one query runner. -/
structure OneRunnerOutcome (α : Type) where
  result : Except String α
  runnerReleased : Bool
deriving Repr

/-- Outcome of an operation holding a primary and a backup query runner. -/
structure TwoRunnerOutcome (α : Type) where
  result : Except String α
  primaryReleased : Bool
  backupReleased : Bool
deriving Repr

/-- The per-table loop of `BackupService.getBackupStatus`
(backup.service.ts lines 551-563): for each primary table, probe existence
in the backup and, when present, run `SELECT COUNT(*)`; `countFails t`
models that count query throwing. Returns the `backed_up_tables` count or
the first thrown error. -/
def getBackupStatusLoop (backupHas countFails : String → Bool) :
    List String → Nat → Except String Nat
  | [], acc => Except.ok acc
  | t :: ts, acc =>
    if backupHas t then
      if countFails t then Except.error ("count failed on " ++ t)
      else getBackupStatusLoop backupHas countFails ts (acc + 1)
    else getBackupStatusLoop backupHas countFails ts acc

/-- `BackupService.getBackupStatus` (backup.service.ts lines 537-571):
the backup query runner is created and connected, the per-table loop runs,
and `release()` (line 565) is executed only after the loop completes; the
surrounding catch logs and rethrows, so an error thrown inside the loop
leaves the runner unreleased. -/
def getBackupStatus (primaryTables : List String)
    (backupHas countFails : String → Bool) : OneRunnerOutcome Nat :=
  match getBackupStatusLoop backupHas countFails primaryTables 0 with
  | Except.ok n => { result := Except.ok n, runnerReleased := true }
  | Except.error e => { result := Except.error e, runnerReleased := false }

/-- `BackupService.backupTable` (backup.service.ts lines 57-90): the whole
body — connects, schema work, data copy, any of which may throw with any
error — runs inside `try ... finally`, and the `finally` block releases
both runners, so both are released on every exit path. -/
def backupTableRunners (body : Except String Unit) : TwoRunnerOutcome Unit :=
  { result := body, primaryReleased := true, backupReleased := true }

/-- `CdcService.syncTableChanges` (src/unnamed/part_004 lines 118-222),
runner accounting: the body runs inside `try ... catch ... finally`; the
catch swallows every error (the operation itself never throws) and the
`finally` releases both runners on every exit path. -/
def syncTableChangesRunners (_body : Except String Unit) : TwoRunnerOutcome Unit :=
  { result := Except.ok (), primaryReleased := true, backupReleased := true }

/-! ## Concrete example tables

The `accounts` table of the spec's end-to-end scenario, in two variants:
with its last-modified column named `updated_at` (as the scenario states
it) and named `updateat` (the column name `syncTableChanges` actually
probes for). Timestamps are epoch integers. -/

/-- The three `accounts` rows, last-modified column named `updated_at`. -/
def accountsRowsUA : List Row :=
  [[("id", Value.int 1), ("email", Value.str "a@x"), ("updated_at", Value.int 100)],
   [("id", Value.int 2), ("email", Value.str "b@x"), ("updated_at", Value.int 200)],
   [("id", Value.int 3), ("email", Value.str "c@x"), ("updated_at", Value.int 300)]]

/-- Primary `accounts(id int pk, email text, updated_at timestamp)`
holding three rows. -/
def accountsTableUA : Table :=
  { name := "accounts"
    cols := [{ name := "id", dataType := "integer" },
             { name := "email", dataType := "text" },
             { name := "updated_at", dataType := "timestamp without time zone" }]
    pk := ["id"]
    rows := accountsRowsUA }

/-- The three `accounts` rows, last-modified column named `updateat`. -/
def accountsRows : List Row :=
  [[("id", Value.int 1), ("email", Value.str "a@x"), ("updateat", Value.int 100)],
   [("id", Value.int 2), ("email", Value.str "b@x"), ("updateat", Value.int 200)],
   [("id", Value.int 3), ("email", Value.str "c@x"), ("updateat", Value.int 300)]]

/-- Primary `accounts(id int pk, email text, updateat timestamp)`
holding three rows. -/
def accountsTable : Table :=
  { name := "accounts"
    cols := [{ name := "id", dataType := "integer" },
             { name := "email", dataType := "text" },
             { name := "updateat", dataType := "timestamp without time zone" }]
    pk := ["id"]
    rows := accountsRows }

/-- A one-column demo row keyed by `id`. -/
def demoRow (i : Int) : Row := [("id", Value.int i)]

/-- Rows 2..10 of a ten-row demo batch. -/
def demoBatchRest : List Row :=
  [demoRow 2, demoRow 3, demoRow 4, demoRow 5, demoRow 6,
   demoRow 7, demoRow 8, demoRow 9, demoRow 10]

/-- A driver oracle rejecting exactly the row with `id = 5` (an invalid
value for an integer column, say). -/
def demoInsertOk (r : Row) : Bool :=
  !(decide (Row.get r "id" = Value.int 5))

/-- Two demo primary rows for the change-pull witness. -/
def demoPullRows : List Row :=
  [[("id", Value.int 1), ("updateat", Value.int 5)],
   [("id", Value.int 2), ("updateat", Value.int 10)]]

/-! # Helper lemmas -/

/-- The seed of a `max` fold bounds from below, and every element is
bounded by the fold. -/
theorem foldlMax_bounds (l : List Int) :
    ∀ x : Int, x ≤ l.foldl max x ∧ ∀ a ∈ l, a ≤ l.foldl max x := by
  induction l with
  | nil => intro x; exact ⟨le_refl x, by simp⟩
  | cons y ys ih =>
    intro x
    refine ⟨le_trans (le_max_left x y) (ih (max x y)).1, ?_⟩
    intro a ha
    rcases List.mem_cons.1 ha with rfl | ha
    · exact le_trans (le_max_right x a) (ih (max x a)).1
    · exact (ih (max x y)).2 a ha

/-- A `max` fold lands on its seed or one of the elements. -/
theorem foldlMax_mem (l : List Int) : ∀ x : Int, l.foldl max x ∈ x :: l := by
  induction l with
  | nil => intro x; simp
  | cons y ys ih =>
    intro x
    have h : ys.foldl max (max x y) ∈ max x y :: ys := ih (max x y)
    rcases List.mem_cons.1 h with he | hm
    · rw [List.foldl_cons, he]
      rcases max_choice x y with h1 | h1 <;> rw [h1]
      · exact List.mem_cons_self _ _
      · exact List.mem_cons_of_mem _ (List.mem_cons_self _ _)
    · rw [List.foldl_cons]
      exact List.mem_cons_of_mem _ (List.mem_cons_of_mem _ hm)

/-- The watermark bounds every target row's cursor value. -/
theorem rowUpdateAt_le_watermarkOf {rows : List Row} {r : Row} (h : r ∈ rows) :
    rowUpdateAt r ≤ watermarkOf rows := by
  unfold watermarkOf
  cases hrows : rows.map rowUpdateAt with
  | nil =>
    exact absurd (List.map_eq_nil_iff.1 hrows ▸ h) (List.not_mem_nil r)
  | cons x xs =>
    have hmem : rowUpdateAt r ∈ x :: xs := hrows ▸ List.mem_map_of_mem rowUpdateAt h
    rcases List.mem_cons.1 hmem with he | hm
    · exact he ▸ (foldlMax_bounds xs x).1
    · exact (foldlMax_bounds xs x).2 _ hm

/-- On a non-empty table the watermark is one of the rows' cursor values
(`MAX` is attained). -/
theorem watermarkOf_mem {rows : List Row} (h : rows ≠ []) :
    watermarkOf rows ∈ rows.map rowUpdateAt := by
  unfold watermarkOf
  cases hrows : rows.map rowUpdateAt with
  | nil => exact absurd (List.map_eq_nil_iff.1 hrows) h
  | cons x xs => exact foldlMax_mem xs x

/-- Every pulled row strictly exceeds the watermark. -/
theorem mem_selectChanged_gt {rows : List Row} {wm : Int} {r : Row}
    (h : r ∈ selectChanged rows wm) : wm < rowUpdateAt r := by
  unfold selectChanged at h
  have h1 := List.take_subset _ _ h
  have h2 := (List.mem_insertionSort rowLe).1 h1
  have h3 := List.mem_filter.1 h2
  simpa using h3.2

/-- The pulled rows are in ascending `updateat` order. -/
theorem sorted_selectChanged (rows : List Row) (wm : Int) :
    List.Sorted rowLe (selectChanged rows wm) :=
  List.Pairwise.sublist (List.take_sublist _ _)
    (List.sorted_insertionSort rowLe _)

/-- At most 100 rows are pulled. -/
theorem length_selectChanged_le (rows : List Row) (wm : Int) :
    (selectChanged rows wm).length ≤ 100 := by
  unfold selectChanged
  rw [List.length_take]
  exact min_le_left _ _

/-- Every changed primary row is pulled, unless the 100-row page is full. -/
theorem selectChanged_complete {rows : List Row} {wm : Int} {r : Row}
    (hr : r ∈ rows) (hgt : wm < rowUpdateAt r) :
    r ∈ selectChanged rows wm ∨ (selectChanged rows wm).length = 100 := by
  unfold selectChanged
  by_cases hlen :
      (List.insertionSort rowLe
        (rows.filter fun r => decide (wm < rowUpdateAt r))).length ≤ 100
  · left
    rw [List.take_of_length_le hlen]
    exact (List.mem_insertionSort rowLe).2
      (List.mem_filter.2 ⟨hr, by simpa using hgt⟩)
  · right
    rw [List.length_take]
    omega

/-- A row already in the table survives one `ON CONFLICT DO NOTHING`
insert. -/
theorem mem_insertRowDoNothing {pk : List String} {rows : List Row} {rec : Row}
    {r : Row} (h : r ∈ rows) : r ∈ insertRowDoNothing pk rows rec := by
  unfold insertRowDoNothing
  split
  · exact h
  · exact List.mem_append_left _ h

/-- A row already in the table survives a whole `insertDataInBatches` run. -/
theorem mem_insertDataInBatches {pk : List String} {target data : List Row}
    {r : Row} (h : r ∈ target) : r ∈ insertDataInBatches pk target data := by
  induction data generalizing target with
  | nil => simpa [insertDataInBatches] using h
  | cons d ds ih =>
    have h1 : r ∈ insertRowDoNothing pk target d := mem_insertRowDoNothing h
    simpa [insertDataInBatches, List.foldl_cons] using
      ih h1

/-- A row agrees with itself on any conflict target. -/
theorem rowMatchesOn_self (cols : List String) (a : Row) :
    rowMatchesOn cols a a = true := by
  simp [rowMatchesOn]

/-- One `ON CONFLICT DO NOTHING` insert either leaves the table unchanged
(a conflict) or appends the row. -/
theorem insertRowDoNothing_cases (pk : List String) (rows : List Row) (rec : Row) :
    (insertRowDoNothing pk rows rec = rows
      ∧ (!pk.isEmpty && rows.any fun r => rowMatchesOn pk r rec) = true)
    ∨ insertRowDoNothing pk rows rec = rows ++ [rec] := by
  unfold insertRowDoNothing
  split
  · exact Or.inl ⟨rfl, by assumption⟩
  · exact Or.inr rfl

/-- After one `ON CONFLICT DO NOTHING` insert of `rec`, some row of the
table agrees with `rec` on the key. -/
theorem exists_match_insertRowDoNothing (pk : List String) (rows : List Row)
    (rec : Row) :
    ∃ r ∈ insertRowDoNothing pk rows rec, rowMatchesOn pk r rec = true := by
  rcases insertRowDoNothing_cases pk rows rec with ⟨heq, hc⟩ | heq
  · rw [heq]
    rw [Bool.and_eq_true] at hc
    exact List.any_eq_true.1 hc.2
  · rw [heq]
    exact ⟨rec, List.mem_append_right _ (List.mem_singleton.2 rfl),
      rowMatchesOn_self pk rec⟩

/-- After a full `insertDataInBatches` run, every data row has a
key-matching row in the table. -/
theorem insertDataInBatches_match_exists {pk : List String} {data : List Row}
    {rec : Row} (h : rec ∈ data) :
    ∀ target : List Row,
      ∃ r ∈ insertDataInBatches pk target data, rowMatchesOn pk r rec = true := by
  induction data with
  | nil => cases h
  | cons d ds ih =>
    intro target
    rcases List.mem_cons.1 h with rfl | hmem
    · rcases exists_match_insertRowDoNothing pk target rec with ⟨r, hr, hm⟩
      refine ⟨r, ?_, hm⟩
      simpa [insertDataInBatches, List.foldl_cons] using
        @mem_insertDataInBatches pk (insertRowDoNothing pk target rec) ds r hr
    · simpa [insertDataInBatches, List.foldl_cons] using
        ih hmem (insertRowDoNothing pk target d)

/-- When the table has a key and every data row already has a key match
in the table, `insertDataInBatches` is a no-op. -/
theorem insertDataInBatches_noop (pk : List String) (rows : List Row)
    (hpk : pk ≠ []) :
    ∀ data : List Row,
      (∀ rec ∈ data, ∃ r ∈ rows, rowMatchesOn pk r rec = true) →
      insertDataInBatches pk rows data = rows := by
  intro data
  induction data with
  | nil => intro _; rfl
  | cons d ds ih =>
    intro hall
    have hany : (rows.any fun r => rowMatchesOn pk r d) = true :=
      List.any_eq_true.2 (hall d (List.mem_cons_self d ds))
    have hcond : (!pk.isEmpty && rows.any fun r => rowMatchesOn pk r d) = true := by
      simp [hany, List.isEmpty_iff, hpk]
    have hstep : insertRowDoNothing pk rows d = rows := by
      unfold insertRowDoNothing
      rw [if_pos hcond]
    calc insertDataInBatches pk rows (d :: ds)
        = insertDataInBatches pk (insertRowDoNothing pk rows d) ds := rfl
      _ = insertDataInBatches pk rows ds := by rw [hstep]
      _ = rows := ih (fun rec h => hall rec (List.mem_cons_of_mem d h))

/-- Unfolding one step of the per-record loop. -/
theorem processBatchLoop_cons (ok : Row → Bool) (pk vc : List String)
    (acc : List Row × Nat) (r : Row) (rs : List Row) :
    processBatchLoop ok pk vc acc (r :: rs)
      = processBatchLoop ok pk vc
          (match tryInsertRecord ok pk vc acc.1 r with
            | Except.ok rows => (rows, acc.2 + 1)
            | Except.error _ => acc) rs := rfl

/-- The per-record loop counts exactly the records the driver accepted:
a caught failure does not abort the remainder of the batch. -/
theorem processBatchLoop_count (ok : Row → Bool) (pk vc : List String) :
    ∀ (records : List Row) (acc : List Row × Nat),
      (processBatchLoop ok pk vc acc records).2 = acc.2 + records.countP ok := by
  intro records
  induction records with
  | nil => intro acc; simp [processBatchLoop]
  | cons r rs ih =>
    intro acc
    rw [processBatchLoop_cons]
    by_cases hok : ok r = true
    · simp only [tryInsertRecord, if_pos hok]
      rw [ih]
      simp [List.countP_cons, hok]
      omega
    · simp only [tryInsertRecord, if_neg hok]
      rw [ih]
      simp [List.countP_cons, hok]

/-- The per-record loop applies the upsert statement of exactly the
accepted records, in order; rejected records leave the state untouched. -/
theorem processBatchLoop_state (ok : Row → Bool) (pk vc : List String) :
    ∀ (records : List Row) (acc : List Row × Nat),
      (processBatchLoop ok pk vc acc records).1
        = (records.filter ok).foldl (applyUpsertSQL pk vc) acc.1 := by
  intro records
  induction records with
  | nil => intro acc; simp [processBatchLoop]
  | cons r rs ih =>
    intro acc
    rw [processBatchLoop_cons]
    by_cases hok : ok r = true
    · simp only [tryInsertRecord, if_pos hok]
      rw [ih]
      simp [List.filter_cons, hok]
    · simp only [tryInsertRecord, if_neg hok]
      rw [ih]
      simp [List.filter_cons, hok]

/-! # Claim theorems -/

/-- C1 (counterexample): the non-forced full-backup path inserts with
`ON CONFLICT DO NOTHING`, not `DO UPDATE`: for a target already holding
the row `id`=1 with `email`='old', inserting the primary's changed row
`id`=1, `email`='new' leaves the target unchanged — no row of the result
carries the new value, contradicting the claim that a changed non-key
column has its new values reflected after the run. -/
theorem insertDataInBatches_stale_row_not_updated :
    insertDataInBatches ["id"]
        [[("id", Value.int 1), ("email", Value.str "old")]]
        [[("id", Value.int 1), ("email", Value.str "new")]]
      = [[("id", Value.int 1), ("email", Value.str "old")]]
    ∧ (∀ r ∈ insertDataInBatches ["id"]
          [[("id", Value.int 1), ("email", Value.str "old")]]
          [[("id", Value.int 1), ("email", Value.str "new")]],
        Row.get r "email" ≠ Value.str "new") := by
  decide

/-- C1 (amended): with a primary key on the target, the non-forced
full-backup insert (`insertDataInBatches`, `ON CONFLICT DO NOTHING`) is
idempotent — applying the same rows twice equals applying them once — and
convergent in the keyed sense: existing target rows survive unchanged and
every primary row ends up key-matched in the target; but conflicting rows
are dropped, never updated, so changed non-key values are NOT propagated
by this path. -/
theorem nonforced_backup_insert_semantics (pk : List String)
    (target data : List Row) (hpk : pk ≠ []) :
    insertDataInBatches pk (insertDataInBatches pk target data) data
      = insertDataInBatches pk target data
    ∧ (∀ r ∈ target, r ∈ insertDataInBatches pk target data)
    ∧ (∀ rec ∈ data,
        ∃ r ∈ insertDataInBatches pk target data, rowMatchesOn pk r rec = true) := by
  refine ⟨?_, fun r h => mem_insertDataInBatches h,
    fun rec h => insertDataInBatches_match_exists h target⟩
  exact insertDataInBatches_noop pk (insertDataInBatches pk target data) hpk data
    (fun rec h => insertDataInBatches_match_exists h target)

/-- C1 (witness): the amended statement instantiated at a concrete keyed
table. -/
theorem nonforced_backup_insert_semantics_witness :
    (["id"] : List String) ≠ []
    ∧ (insertDataInBatches ["id"]
          (insertDataInBatches ["id"] [] [demoRow 1]) [demoRow 1]
        = insertDataInBatches ["id"] [] [demoRow 1]
      ∧ (∀ r ∈ ([] : List Row), r ∈ insertDataInBatches ["id"] [] [demoRow 1])
      ∧ (∀ rec ∈ [demoRow 1],
          ∃ r ∈ insertDataInBatches ["id"] [] [demoRow 1],
            rowMatchesOn ["id"] r rec = true)) :=
  ⟨by decide, nonforced_backup_insert_semantics ["id"] [] [demoRow 1] (by decide)⟩

/-- C2 (counterexample): for the spec's `accounts(id, email, updated_at)`
with 3 rows and an empty target, one detection cycle creates the target
table but copies 0 of the 3 rows — and so does the next cycle, because
`syncTableChanges` only syncs a column literally named `updateat`. This
contradicts the claim that a single cycle creates the table and copies
all 3 rows. -/
theorem detection_cycle_updated_at_copies_no_rows :
    (DB.find (detectAndSyncChanges [accountsTableUA] []) "accounts").map
        Table.rows = some []
    ∧ (DB.find (detectAndSyncChanges [accountsTableUA]
          (detectAndSyncChanges [accountsTableUA] [])) "accounts").map
        Table.rows = some []
    ∧ accountsTableUA.rows.length = 3 := by
  decide

/-- C2 (amended): for `accounts(id int pk, email text, updateat timestamp)`
with 3 rows and an empty target: the first detection cycle creates the
target table and copies 0 rows (structure-first); the second cycle copies
all 3 rows, after which the target watermark equals `MAX(updateat)` = 300
of those rows; a third cycle with no primary changes copies nothing and
leaves the backup — watermark included — unchanged. -/
theorem detection_cycles_accounts_updateat_convergence :
    (DB.find (detectAndSyncChanges [accountsTable] []) "accounts").map
        Table.rows = some []
    ∧ (DB.find (detectAndSyncChanges [accountsTable]
          (detectAndSyncChanges [accountsTable] [])) "accounts").map
        Table.rows = some accountsRows
    ∧ accountsRows.length = 3
    ∧ (DB.find (detectAndSyncChanges [accountsTable]
          (detectAndSyncChanges [accountsTable] [])) "accounts").map
        (fun t => watermarkOf t.rows) = some 300
    ∧ watermarkOf accountsRows = 300
    ∧ detectAndSyncChanges [accountsTable]
        (detectAndSyncChanges [accountsTable]
          (detectAndSyncChanges [accountsTable] []))
      = detectAndSyncChanges [accountsTable]
          (detectAndSyncChanges [accountsTable] []) := by
  decide

/-- C3: the change pull reads the watermark as the target's
`MAX(updateat)` (0 — the epoch — when the target is empty, for bigint and
timestamp cursors alike in the integer-timestamp model), and pulls
exactly the primary rows whose cursor strictly exceeds it, ascending,
capped at 100 per cycle: every pulled row exceeds the watermark, the
pull is sorted, at most 100 long, and omits a changed row only when the
100-row page is full; the watermark bounds every target row and is
attained on a non-empty target. -/
theorem change_pull_watermark_semantics (rows : List Row) (wm : Int) :
    (∀ r ∈ selectChanged rows wm, wm < rowUpdateAt r)
    ∧ List.Sorted rowLe (selectChanged rows wm)
    ∧ (selectChanged rows wm).length ≤ 100
    ∧ (∀ r ∈ rows, wm < rowUpdateAt r →
        r ∈ selectChanged rows wm ∨ (selectChanged rows wm).length = 100)
    ∧ watermarkOf [] = 0
    ∧ (∀ r ∈ rows, rowUpdateAt r ≤ watermarkOf rows)
    ∧ (rows ≠ [] → watermarkOf rows ∈ rows.map rowUpdateAt) :=
  ⟨fun _ h => mem_selectChanged_gt h, sorted_selectChanged rows wm,
   length_selectChanged_le rows wm,
   fun _ hr hgt => selectChanged_complete hr hgt, rfl,
   fun _ h => rowUpdateAt_le_watermarkOf h, fun h => watermarkOf_mem h⟩

/-- C3 (witness): the pull-and-watermark statement at two concrete rows. -/
theorem change_pull_watermark_semantics_witness :
    demoPullRows ≠ []
    ∧ watermarkOf demoPullRows ∈ demoPullRows.map rowUpdateAt :=
  ⟨by decide,
   (change_pull_watermark_semantics demoPullRows 0).2.2.2.2.2.2 (by decide)⟩

/-- C4 (counterexample): the generic fallback builder of the
change-detection path (`createTableWithFallback`) does NOT degrade an
enum column to text: a `USER-DEFINED` column is emitted with its native
`udt_name`. -/
theorem fallback_builder_enum_not_text :
    fallbackColumnType
        { column_name := "role", data_type := "USER-DEFINED",
          is_nullable := "YES", character_maximum_length := none,
          udt_name := "user_role" } = "user_role"
    ∧ ¬ (fallbackColumnType
        { column_name := "role", data_type := "USER-DEFINED",
          is_nullable := "YES", character_maximum_length := none,
          udt_name := "user_role" } = "text") := by
  decide

/-- C4 (amended): the full-backup generic builder
(`mapPostgreSQLDataType`) degrades user-defined (enum) columns to `text`,
while the change-detection fallback builder (`createTableWithFallback`)
emits the native `udt_name` for them; in both builders every unrecognized
native type maps to `text`, and the synthesized `CREATE TABLE` statement
is produced (totally) for every introspected column list. -/
theorem ddl_fallback_type_mapping :
    (∀ col : IntrospectedColumn, toLowerAscii col.data_type = "user-defined" →
        mapPostgreSQLDataType col = "text")
    ∧ (∀ col : FallbackColumn, col.data_type = "USER-DEFINED" →
        fallbackColumnType col = col.udt_name)
    ∧ (∀ col : FallbackColumn,
        col.data_type ∉ ["character varying", "text", "bigint", "integer",
          "boolean", "timestamp without time zone",
          "timestamp with time zone", "USER-DEFINED"] →
        fallbackColumnType col = "text")
    ∧ (∀ dt : String,
        toLowerAscii dt ∉ ["bigint", "integer", "smallint", "boolean", "text",
          "uuid", "bytea", "real", "double precision", "money", "inet",
          "cidr", "macaddr"] →
        mapSimpleType dt = "text")
    ∧ (∀ (tableName : String) (cols : List FallbackColumn),
        ∃ rest : String,
          createTableWithFallbackSQL tableName cols = "CREATE TABLE \"" ++ rest) := by
  refine ⟨?_, ?_, ?_, ?_, ?_⟩
  · intro col h
    simp [mapPostgreSQLDataType, h]
  · intro col h
    simp [fallbackColumnType, h]
  · intro col h
    simp only [List.mem_cons, List.not_mem_nil, or_false, not_or] at h
    obtain ⟨h1, h2, h3, h4, h5, h6, h7, h8⟩ := h
    simp [fallbackColumnType, h1, h2, h3, h4, h5, h6, h7, h8]
  · intro dt h
    simp only [List.mem_cons, List.not_mem_nil, or_false, not_or] at h
    obtain ⟨h1, h2, h3, h4, h5, h6, h7, h8, h9, h10, h11, h12, h13⟩ := h
    simp [mapSimpleType, h1, h2, h3, h4, h5, h6, h7, h8, h9, h10, h11, h12, h13]
  · intro tableName cols
    refine ⟨tableName ++ ("\" (" ++
      (String.intercalate ", " (cols.map fallbackColumnDef) ++ ")")), ?_⟩
    simp [createTableWithFallbackSQL, String.append_assoc]

/-- C4 (witness): the amended statement at a concrete enum column. -/
theorem ddl_fallback_type_mapping_witness :
    ({ column_name := "mood_col", data_type := "USER-DEFINED",
       is_nullable := "NO", character_maximum_length := none,
       udt_name := "mood" } : FallbackColumn).data_type = "USER-DEFINED"
    ∧ fallbackColumnType
        { column_name := "mood_col", data_type := "USER-DEFINED",
          is_nullable := "NO", character_maximum_length := none,
          udt_name := "mood" }
      = ({ column_name := "mood_col", data_type := "USER-DEFINED",
           is_nullable := "NO", character_maximum_length := none,
           udt_name := "mood" } : FallbackColumn).udt_name :=
  ⟨rfl, ddl_fallback_type_mapping.2.1 _ rfl⟩

/-- C5: absent other triggers, a last backup 7 hours old classifies as
`warning`, 25 hours as `error`, 2 hours as `healthy`; in general the
resulting status is the maximum severity of the coverage and staleness
conditions regardless of evaluation order, and when both trigger, both
messages land in the errors list (two entries). -/
theorem collectMetrics_health_classification :
    (collectMetricsClassify 10 10 (some 7)).1 = HealthStatus.warning
    ∧ (collectMetricsClassify 10 10 (some 25)).1 = HealthStatus.error
    ∧ (collectMetricsClassify 10 10 (some 2)).1 = HealthStatus.healthy
    ∧ (∀ (t b : Nat) (h : Option Rat),
        (collectMetricsClassify t b h).1
          = maxStatus (coverageSeverity t b) (staleSeverity h))
    ∧ (∀ (t b : Nat) (h : Rat), coverageSeverity t b = HealthStatus.warning →
        6 < h → (collectMetricsClassify t b (some h)).2.length = 2) := by
  refine ⟨by norm_num [collectMetricsClassify],
    by norm_num [collectMetricsClassify],
    by norm_num [collectMetricsClassify], ?_, ?_⟩
  · intro t b h
    cases h with
    | none =>
      by_cases hc : (if 0 < t then (b : Rat) / (t : Rat) else 1) < 9 / 10 <;>
        simp [collectMetricsClassify, coverageSeverity, staleSeverity,
          maxStatus, statusSeverity, hc]
    | some hr =>
      by_cases hc : (if 0 < t then (b : Rat) / (t : Rat) else 1) < 9 / 10 <;>
        by_cases h24 : 24 < hr <;>
        by_cases h6 : 6 < hr <;>
        first
          | (exfalso; linarith)
          | simp [collectMetricsClassify, coverageSeverity, staleSeverity,
              maxStatus, statusSeverity, hc, h24, h6]
  · intro t b h hcs h6
    have hc : (if 0 < t then (b : Rat) / (t : Rat) else 1) < 9 / 10 := by
      by_contra hcc
      simp [coverageSeverity, hcc] at hcs
    by_cases h24 : 24 < h <;>
      simp [collectMetricsClassify, hc, h24, h6]

/-- C5 (witness): both triggers firing at once — coverage 4 of 10 and a
7-hour-old backup — produce two error entries. -/
theorem collectMetrics_health_classification_witness :
    coverageSeverity 10 4 = HealthStatus.warning
    ∧ (6 : Rat) < 7
    ∧ (collectMetricsClassify 10 4 (some 7)).2.length = 2 :=
  ⟨by norm_num [coverageSeverity], by norm_num,
   collectMetrics_health_classification.2.2.2.2 10 4 7
     (by norm_num [coverageSeverity]) (by norm_num)⟩

/-- C6 (code evaluated at the failing input): `getBackupStatus` leaks its
backup query runner when a per-table `COUNT(*)` query throws after the
runner connected — the release on line 565 is never reached and the catch
rethrows — while `backupTable` and `syncTableChanges` release both their
runners on every exit path via `finally`. -/
theorem getBackupStatus_runner_leak :
    (getBackupStatus ["users"] (fun _ => true) (fun _ => true)).runnerReleased
      = false
    ∧ (∀ body : Except String Unit,
        (backupTableRunners body).primaryReleased = true
        ∧ (backupTableRunners body).backupReleased = true)
    ∧ (∀ body : Except String Unit,
        (syncTableChangesRunners body).primaryReleased = true
        ∧ (syncTableChangesRunners body).backupReleased = true) :=
  ⟨rfl, fun _ => ⟨rfl, rfl⟩, fun _ => ⟨rfl, rfl⟩⟩

/-- C7: in the upsert engine, a single row's insertion failure is caught
and the loop proceeds: for any batch of 10 records with valid columns of
which exactly one is rejected by the driver, the batch returns normally
with 9 records upserted, and the resulting state is the fold of the
upsert statement over exactly the 9 accepted records. -/
theorem processBatch_row_isolation (ok : Row → Bool) (pk schemaCols : List String)
    (st : List Row) (r0 : Row) (rest : List Row)
    (hvalid : validColumnsOf schemaCols r0 ≠ [])
    (hlen : (r0 :: rest).length = 10)
    (hfail : ((r0 :: rest).countP fun r => !(ok r)) = 1) :
    (processBatch ok pk schemaCols st (r0 :: rest)).2 = 9
    ∧ (processBatch ok pk schemaCols st (r0 :: rest)).1
      = ((r0 :: rest).filter ok).foldl
          (applyUpsertSQL pk (validColumnsOf schemaCols r0)) st := by
  have hsplit : ∀ l : List Row, l.countP ok + l.countP (fun r => !(ok r)) = l.length := by
    intro l
    induction l with
    | nil => simp
    | cons x xs ih =>
      by_cases hx : ok x = true <;> simp [List.countP_cons, hx] <;> omega
  have hcount : (r0 :: rest).countP ok = 9 := by
    have h10 := hsplit (r0 :: rest)
    omega
  have hne : (validColumnsOf schemaCols r0).isEmpty = false := by
    simpa [List.isEmpty_iff] using hvalid
  have hdef : processBatch ok pk schemaCols st (r0 :: rest)
      = if (validColumnsOf schemaCols r0).isEmpty then (st, 0)
        else processBatchLoop ok pk (validColumnsOf schemaCols r0) (st, 0)
          (r0 :: rest) := rfl
  rw [hdef, if_neg (by simp [hne])]
  constructor
  · rw [processBatchLoop_count]
    simpa using hcount
  · rw [processBatchLoop_state]

/-- C7 (witness): ten demo rows keyed by `id`, the driver rejecting
exactly the row with `id` = 5: nine upserts, no batch rejection. -/
theorem processBatch_row_isolation_witness :
    validColumnsOf ["id"] (demoRow 1) ≠ []
    ∧ (demoRow 1 :: demoBatchRest).length = 10
    ∧ ((demoRow 1 :: demoBatchRest).countP fun r => !(demoInsertOk r)) = 1
    ∧ (processBatch demoInsertOk ["id"] ["id"] [] (demoRow 1 :: demoBatchRest)).2
        = 9
    ∧ (processBatch demoInsertOk ["id"] ["id"] [] (demoRow 1 :: demoBatchRest)).1
        = ((demoRow 1 :: demoBatchRest).filter demoInsertOk).foldl
            (applyUpsertSQL ["id"] (validColumnsOf ["id"] (demoRow 1))) [] :=
  ⟨by decide, by decide, by decide,
   (processBatch_row_isolation demoInsertOk ["id"] ["id"] [] (demoRow 1)
      demoBatchRest (by decide) (by decide) (by decide)).1,
   (processBatch_row_isolation demoInsertOk ["id"] ["id"] [] (demoRow 1)
      demoBatchRest (by decide) (by decide) (by decide)).2⟩

/-- C8 (counterexample): the boolean coercion accepts `'t'` only in
lowercase: the uppercase string `'T'` coerces to `false`, contradicting
the claim that `'t'` is matched case-insensitively. -/
theorem boolean_coercion_uppercase_T_false :
    processColumnValueBoolean (JSVal.str "T") = JSVal.bool false
    ∧ processColumnValueBoolean (JSVal.str "t") = JSVal.bool true := by
  decide

/-- C8 (amended): a string input to a boolean column coerces to
`lowercase(s) = 'true'`, or `s = '1'`, or `s = 't'` — so `'true'` is
matched case-insensitively, `'1'` trivially so, but `'t'` only in
lowercase — and every non-null input coerces to a boolean value. -/
theorem boolean_coercion_semantics :
    (∀ s : String, processColumnValueBoolean (JSVal.str s)
        = JSVal.bool (toLowerAscii s == "true" || s == "1" || s == "t"))
    ∧ processColumnValueBoolean (JSVal.str "TRUE") = JSVal.bool true
    ∧ processColumnValueBoolean (JSVal.str "tRuE") = JSVal.bool true
    ∧ processColumnValueBoolean (JSVal.str "1") = JSVal.bool true
    ∧ (∀ v : JSVal, v ≠ JSVal.null →
        ∃ b : Bool, processColumnValueBoolean v = JSVal.bool b) := by
  refine ⟨fun s => rfl, by decide, by decide, by decide, ?_⟩
  intro v hv
  cases v with
  | null => exact absurd rfl hv
  | str s => exact ⟨_, rfl⟩
  | num n => exact ⟨_, rfl⟩
  | bool b => exact ⟨_, rfl⟩

/-- C8 (witness): a non-null numeric input coerces to a boolean. -/
theorem boolean_coercion_semantics_witness :
    JSVal.num 5 ≠ JSVal.null
    ∧ ∃ b : Bool, processColumnValueBoolean (JSVal.num 5) = JSVal.bool b :=
  ⟨by decide, boolean_coercion_semantics.2.2.2.2 (JSVal.num 5) (by decide)⟩

/-- C9: the monitor's coverage percentage is
`round(backedUpTables / totalTables * 100)` with JS `Math.round`
half-up behaviour — 96 at 43 of 45 tables — and 0 when there are no
tables. -/
theorem coverage_percentage_rounding :
    coveragePercentage 45 43 = 96
    ∧ (∀ b : Nat, coveragePercentage 0 b = 0)
    ∧ (∀ t b : Nat, 0 < t →
        coveragePercentage t b
          = Int.floor ((b : Rat) / (t : Rat) * 100 + 1 / 2)) := by
  refine ⟨by norm_num [coveragePercentage, jsMathRound], ?_, ?_⟩
  · intro b
    simp [coveragePercentage]
  · intro t b ht
    simp [coveragePercentage, jsMathRound, ht]

/-- C9 (witness): the rounding rule applied at 43 of 45. -/
theorem coverage_percentage_rounding_witness :
    0 < 45
    ∧ coveragePercentage 45 43
      = Int.floor (((43 : Nat) : Rat) / ((45 : Nat) : Rat) * 100 + 1 / 2) :=
  ⟨by norm_num, coverage_percentage_rounding.2.2 45 43 (by norm_num)⟩

/-- C10: `forceSyncTable` returns a structured failure — `success` false,
zero records processed — and leaves the backup database untouched (in
particular it never creates a missing target table) whenever the table is
absent from the primary or from the backup, or an internal database call
throws; the model is a total function, so no path throws to the caller. -/
theorem forceSyncTable_failure_contract (primary backup : DB)
    (tableName : String) (connectFails selectFails : Bool)
    (h : checkTableExists primary tableName = false
       ∨ checkTableExists backup tableName = false
       ∨ connectFails = true ∨ selectFails = true) :
    (forceSyncTable primary backup tableName connectFails selectFails).1.success
        = false
    ∧ (forceSyncTable primary backup tableName connectFails
        selectFails).1.recordsProcessed = 0
    ∧ (forceSyncTable primary backup tableName connectFails selectFails).2
        = backup := by
  by_cases hcf : connectFails = true
  · simp [forceSyncTable, hcf]
  · by_cases hpe : checkTableExists primary tableName = true
    · by_cases hbe : checkTableExists backup tableName = true
      · by_cases hsf : selectFails = true
        · simp [forceSyncTable, hcf, hpe, hbe, hsf]
        · simp [hpe, hbe] at h
          rcases h with h | h
          · exact absurd h hcf
          · exact absurd h hsf
      · simp [forceSyncTable, hcf, hpe, hbe]
    · simp [forceSyncTable, hcf, hpe]

/-- C10 (witness): the contract at a concrete state where the target
table is missing from the backup database. -/
theorem forceSyncTable_failure_contract_witness :
    (checkTableExists [accountsTable] "accounts" = false
      ∨ checkTableExists [] "accounts" = false
      ∨ false = true ∨ false = true)
    ∧ (forceSyncTable [accountsTable] [] "accounts" false false).1.success = false
    ∧ (forceSyncTable [accountsTable] [] "accounts" false
        false).1.recordsProcessed = 0
    ∧ (forceSyncTable [accountsTable] [] "accounts" false false).2 = [] := by
  have h : checkTableExists [accountsTable] "accounts" = false
      ∨ checkTableExists ([] : DB) "accounts" = false
      ∨ false = true ∨ false = true := by decide
  have hc := forceSyncTable_failure_contract [accountsTable] [] "accounts"
    false false h
  exact ⟨h, hc.1, hc.2.1, hc.2.2⟩

end BackupData
